import Mathlib

set_option maxRecDepth 8000

/-!
Verification of the qaApp repository (Go): the template resolution and
rendering handler `serveTemplate`, and the bootstrap functions
`createDatabase` and `createSampleData` backed by database/sql with the
go-sqlite3 driver.

Go strings are modelled as `List Char`; Go `int` as `Int`; fallible
operations return pairs with an `Option` error, mirroring Go's
`(value, error)` convention.
-/

namespace QaApp

/-! ## Go `path/filepath` primitives (Unix separator rules)

`serveTemplate` uses `filepath.Base` and `filepath.Join` (which calls
`filepath.Clean`).  These are modelled below from the Go standard
library's documented Unix behaviour. -/

def isSep (c : Char) : Bool := c == '/'

/-- Strip trailing path separators, as the first loop of Go `filepath.Base`. -/
def dropTrailingSeps (l : List Char) : List Char :=
  (l.reverse.dropWhile isSep).reverse

/-- The final element: everything after the last separator. -/
def lastSeg (l : List Char) : List Char :=
  (l.reverse.takeWhile (fun c => !(isSep c))).reverse

/-- Model of Go `filepath.Base` on Unix: empty path gives ".", an
all-separator path gives "/", otherwise the last element of the path
after trailing separators are removed. -/
def goBase (p : List Char) : List Char :=
  if p = [] then ['.']
  else if dropTrailingSeps p = [] then ['/']
  else lastSeg (dropTrailingSeps p)

/-- Split a path into its `/`-separated segments (both empty and
nonempty), accumulating the current segment in reverse. -/
def segmentsAux : List Char → List Char → List (List Char)
  | [], cur => [cur.reverse]
  | c :: rest, cur =>
    if c = '/' then cur.reverse :: segmentsAux rest [] else segmentsAux rest (c :: cur)

def segments (p : List Char) : List (List Char) := segmentsAux p []

/-- The element-processing loop of Go `filepath.Clean`: empty and "."
segments are dropped, ".." pops the previous element (kept literally at
the start of a relative path, dropped at the root of a rooted one), and
every other segment is pushed.  `acc` holds the output stack in reverse. -/
def cleanSegsAux (rooted : Bool) : List (List Char) → List (List Char) → List (List Char)
  | [], acc => acc.reverse
  | s :: rest, acc =>
    if s = [] ∨ s = ['.'] then cleanSegsAux rooted rest acc
    else if s = ['.', '.'] then
      match acc with
      | [] =>
        if rooted then cleanSegsAux rooted rest []
        else cleanSegsAux rooted rest [['.', '.']]
      | t :: acc2 =>
        if t = ['.', '.'] then cleanSegsAux rooted rest (s :: t :: acc2)
        else cleanSegsAux rooted rest acc2
    else cleanSegsAux rooted rest (s :: acc)

def intercalateSlash : List (List Char) → List Char
  | [] => []
  | [s] => s
  | s :: rest => s ++ '/' :: intercalateSlash rest

/-- Model of Go `filepath.Clean` on Unix: simplify the path using the
segment rules of `cleanSegsAux`; an empty result is "." (or "/" when the
input was rooted). -/
def goClean (p : List Char) : List Char :=
  if p = [] then ['.']
  else
    let rooted := p.head? == some '/'
    let segs := cleanSegsAux rooted (segments p) []
    if rooted then (if segs = [] then ['/'] else '/' :: intercalateSlash segs)
    else (if segs = [] then ['.'] else intercalateSlash segs)

/-- Model of Go `filepath.Join` for two elements: empty elements are
skipped from the front and the separator-joined result is cleaned. -/
def goJoin (a b : List Char) : List Char :=
  if a = [] ∧ b = [] then []
  else if a = [] then goClean b
  else goClean (a ++ '/' :: b)

/-! ## Template name resolution (`serveTemplate`, lines 189–197)

```go
templateName := filepath.Base(r.URL.Path)
if templateName == "/" { templateName = "index.html" }
templatePath := filepath.Join("templates", templateName)
``` -/

def resolveTemplateName (path : List Char) : List Char :=
  if goBase path = ['/'] then "index.html".toList else goBase path

def resolveTemplatePath (path : List Char) : List Char :=
  goJoin "templates".toList (resolveTemplateName path)

/-- The three files handed to `template.ParseFiles` (line 200): the
resolved page template, the footer fragment and the header fragment. -/
def templateFileList (path : List Char) : List (List Char) :=
  [resolveTemplatePath path,
   "templates/footer.gohtml".toList,
   "templates/header.gohtml".toList]

/-! ## Data model (struct declarations of the source) -/

structure Answer where
  AnsID : Int
  AnsBody : String
  AnsDate : String
  AnsTime : String
  AnsUser : String
  AnsVotes : List String
  AnsViews : Int
  AnsQn : Int
deriving DecidableEq

structure Badge where
  BadgeID : Int
  BadgeName : String
  BadgeDesc : String
  BadgeUsers : List String
deriving DecidableEq

structure Question where
  QnID : Int
  QnHeading : String
  QnBody : String
  QnTags : List String
  QnImage : List String
  QnDate : String
  QnTime : String
  QnUser : String
  QnAnswers : List Answer
  QnVotes : List String
  QnViews : Int
  QnOpen : Bool
deriving DecidableEq

structure Tag where
  TagID : Int
  TagName : String
  TagDesc : String
deriving DecidableEq

structure User where
  FirstName : String
  LastName : String
  UserName : String
  UniqueID : Int
  Questions : List Question
  Answers : List Answer
  Notifications : List String
  Password : String
  UserTags : List String
  UserType : List String
  UserImage : String
  SuperUser : Bool
  ModTags : List String
  ModQuestions : List Question
  Badges : List Badge
deriving DecidableEq

/-! ## The HTTP handler `serveTemplate` -/

/-- An incoming HTTP request.  The handler only ever reads `r.URL.Path`;
the other fields are carried so that independence from them is a
statement, not an artifact of the model. -/
structure Request where
  method : List Char
  path : List Char
  headers : List (List Char × List Char)
  body : List Char
  remoteAddr : List Char

/-- The anonymous struct `p` built by `serveTemplate` (lines 182–188). -/
structure PageData where
  Logged : Bool
  User : User
deriving DecidableEq

/-- The hard-coded user literal of line 187; all omitted Go struct
fields take their zero values. -/
def marioUser : User :=
  { FirstName := "Mario", LastName := "Rossi", UserName := "mario", UniqueID := 1,
    Questions := [], Answers := [], Notifications := [], Password := "",
    UserTags := [], UserType := [], UserImage := "", SuperUser := false,
    ModTags := [], ModQuestions := [], Badges := [] }

/-- The page context built at the top of `serveTemplate`: it does not
inspect the request at all. -/
def pageData (_r : Request) : PageData := { Logged := true, User := marioUser }

/-- The handler's response: HTTP status code and accumulated body bytes.
`http.Error(w, msg, 500)` is modelled as status 500 with body `msg`
(eliding the trailing newline `Fprintln` appends). -/
structure Response where
  status : Nat
  body : List Char
deriving DecidableEq

/-- The environment `serveTemplate` runs against: the filesystem and the
`html/template` machinery, abstracted over the parsed-template type
`Tmpl`.  `parseFiles` models `template.ParseFiles` (which fails at least
whenever one of the named files cannot be read — the field
`parseMissing` records that standard-library guarantee).  `execute`
models `tmpl.Execute`, returning the bytes streamed to the writer so far
together with an optional error. -/
structure World (Tmpl : Type) where
  fs : List Char → Option (List Char)
  parseFiles : List (List Char) → Except (List Char) Tmpl
  parseMissing : ∀ ps p, p ∈ ps → fs p = none → ∃ e, parseFiles ps = Except.error e
  execute : Tmpl → PageData → List Char × Option (List Char)

/-- Outcome of `tmpl.Execute(w, p)` followed by the handler's error
branch: if execution failed before anything was written, `http.Error`
still controls the whole response (status 500); if output was already
streamed, the status stays 200 and the error text is appended to the
partial output, matching Go's behaviour of a superfluous
`WriteHeader` after bytes are on the wire. -/
def execToResponse : List Char × Option (List Char) → Response
  | (out, none) => { status := 200, body := out }
  | (out, some e) =>
    if out = [] then { status := 500, body := e }
    else { status := 200, body := out ++ e }

/-- Model of `serveTemplate` (lines 181–211): build the fixed page
context, resolve the template path from the request path, parse the
template set, and either report the parse error with HTTP 500 or
execute the template. -/
def serveTemplate {Tmpl : Type} (w : World Tmpl) (r : Request) : Response :=
  let p := pageData r
  match w.parseFiles (templateFileList r.path) with
  | Except.error e => { status := 500, body := e }
  | Except.ok t => execToResponse (w.execute t p)

/-! ## The SQL layer

The bootstrap functions hand literal SQL text to `db.Exec`.  To settle
claims about which tables and rows actually come into being, the SQL
text is embedded verbatim and interpreted by a small strict-dialect
engine: a tokenizer, a grammar for the `create table` / `insert into`
statements the program uses, and an in-memory database. -/

abbrev Tok := List Char

def isWhite (c : Char) : Bool := c == ' ' || c == '\n' || c == '\t' || c == '\r'

def isPunctTok (c : Char) : Bool := c == '(' || c == ')' || c == ',' || c == ';'

def isWordChar (c : Char) : Bool := !(isWhite c) && !(isPunctTok c) && c != '"'

/-- Fuel-driven tokenizer: whitespace separates tokens; parentheses,
commas and semicolons are single-character tokens; a double-quoted SQL
string literal is one token (quotes included); anything else is a word.
The fuel is the input length plus one, enough to consume the input. -/
def tokenizeAux : Nat → List Char → List Tok
  | 0, _ => []
  | _ + 1, [] => []
  | fuel + 1, c :: rest =>
    if isWhite c then tokenizeAux fuel rest
    else if isPunctTok c then [c] :: tokenizeAux fuel rest
    else if c == '"' then
      ('"' :: (rest.takeWhile (fun d => d != '"') ++ ['"'])) ::
        tokenizeAux fuel ((rest.dropWhile (fun d => d != '"')).drop 1)
    else
      (c :: rest).takeWhile isWordChar ::
        tokenizeAux fuel ((c :: rest).dropWhile isWordChar)

def tokenize (l : List Char) : List Tok := tokenizeAux (l.length + 1) l

def lparTok : Tok := ['(']
def rparTok : Tok := [')']
def commaTok : Tok := [',']
def semiTok : Tok := [';']
def kwCreate : Tok := "create".toList
def kwTable : Tok := "table".toList
def kwInsert : Tok := "insert".toList
def kwInto : Tok := "into".toList
def kwValues : Tok := "values".toList

/-- Split a token list on a separator token. -/
def splitTok (sep : Tok) (ts : List Tok) : List (List Tok) :=
  ts.foldr
    (fun t acc =>
      if t = sep then [] :: acc
      else
        match acc with
        | g :: gs => (t :: g) :: gs
        | [] => [[t]])
    [[]]

def isWordTok (t : Tok) : Bool :=
  match t with
  | [] => false
  | c :: _ => isWordChar c

/-- Column types appearing in the program's schema. -/
def sqlColTypes : List Tok :=
  ["text".toList, "int".toList, "integer".toList, "bool".toList]

/-- Column-constraint words appearing in the program's schema. -/
def sqlConstraintWords : List Tok :=
  ["not".toList, "null".toList, "primary".toList, "key".toList, "autoincrement".toList]

/-- A strict-dialect column definition: a column name, a type, and then
only constraint keywords.  A second name/type pair in the same
comma-delimited item (as in the tags schema) is rejected. -/
def wellFormedColDef (g : List Tok) : Bool :=
  match g with
  | name :: ty :: rest =>
    isWordTok name && sqlColTypes.contains ty &&
      rest.all (fun t => sqlConstraintWords.contains t)
  | _ => false

/-- Parse `create table <name> ( <coldefs> )` under the strict grammar;
returns the table name and its comma-delimited column items. -/
def parseCreate (ts : List Tok) : Option (Tok × List (List Tok)) :=
  match ts with
  | t1 :: t2 :: n :: t4 :: rest =>
    if t1 = kwCreate ∧ t2 = kwTable ∧ t4 = lparTok ∧ isWordTok n then
      match rest.reverse with
      | lastT :: revInner =>
        if lastT = rparTok then
          let inner := revInner.reverse
          if inner.contains lparTok || inner.contains rparTok then none
          else
            let groups := splitTok commaTok inner
            if groups ≠ [] ∧ groups.all wellFormedColDef then some (n, groups)
            else none
        else none
      | [] => none
    else none
  | _ => none

/-- Parse `insert into <name> ( <cols> ) values ( <vals> )` under the
strict grammar; returns the table name and the value tokens. -/
def parseInsert (ts : List Tok) : Option (Tok × List Tok) :=
  match ts with
  | t1 :: t2 :: n :: t4 :: rest =>
    if t1 = kwInsert ∧ t2 = kwInto ∧ t4 = lparTok ∧ isWordTok n then
      let cols := rest.takeWhile (fun t => t != rparTok)
      match rest.dropWhile (fun t => t != rparTok) with
      | _ :: t5 :: t6 :: rest2 =>
        if t5 = kwValues ∧ t6 = lparTok then
          match rest2.reverse with
          | lastT :: revVals =>
            if lastT = rparTok then
              let colGroups := splitTok commaTok cols
              let valGroups := splitTok commaTok revVals.reverse
              if colGroups.all (fun g => match g with | [t] => isWordTok t | _ => false) &&
                 valGroups.all (fun g => match g with | [_] => true | _ => false) &&
                 colGroups.length == valGroups.length then
                some (n, valGroups.map (fun g => g.headD []))
              else none
            else none
          | [] => none
        else none
      | _ => none
    else none
  | _ => none

/-- The on-disk database contents: created tables (name and column
items, in creation order) and inserted rows (table name and value
tokens, in insertion order). -/
structure DBFile where
  tables : List (Tok × List (List Tok))
  rows : List (Tok × List Tok)
deriving DecidableEq

def emptyDB : DBFile := { tables := [], rows := [] }

def rowsOf (db : DBFile) (n : Tok) : List (List Tok) :=
  (db.rows.filter (fun rw => rw.1 == n)).map Prod.snd

/-- Execute one SQL statement (one token list with the semicolon already
stripped) against the database. -/
def execStmt (db : DBFile) (ts : List Tok) : DBFile × Option (List Char) :=
  match parseCreate ts with
  | some (n, cols) =>
    if (db.tables.map Prod.fst).contains n then
      (db, some ("table already exists".toList))
    else ({ db with tables := db.tables ++ [(n, cols)] }, none)
  | none =>
    match parseInsert ts with
    | some (n, vals) =>
      if (db.tables.map Prod.fst).contains n then
        ({ db with rows := db.rows ++ [(n, vals)] }, none)
      else (db, some ("no such table".toList))
    | none => (db, some ("SQL syntax error".toList))

def execStmts : DBFile → List (List Tok) → DBFile × Option (List Char)
  | db, [] => (db, none)
  | db, s :: rest =>
    match execStmt db s with
    | (db2, none) => execStmts db2 rest
    | (db2, some e) => (db2, some e)

/-- Model of `db.Exec(query, args...)` through database/sql and the
go-sqlite3 driver: the driver executes the semicolon-separated
statements of `query` one after another, stopping at the first error.
None of the program's statements contains a `?` placeholder, so no
argument is ever consumed; after the last statement the driver reports
`not all args are consumed` when arguments remain.  The statements
already executed keep their effect (no transaction). -/
def dbExec (db : DBFile) (query : List Char) (args : List (List Char)) :
    DBFile × Option (List Char) :=
  match execStmts db ((splitTok semiTok (tokenize query)).filter (fun g => g ≠ [])) with
  | (db2, some e) => (db2, some e)
  | (db2, none) =>
    if args = [] then (db2, none)
    else (db2, some ("not all args are consumed".toList))

/-! ## The SQL literals of the source (lines 80–140 and 155–174) -/

def sqlCreateUsers : List Char :=
  ("\n\t\tcreate table users (\n\t\t\tid integer not null primary key autoincrement,\n\t\t\tfirst_name text,\n\t\t\tlast_name text,\n\t\t\tusername text,\n\t\t\tunique_id int,\n\t\t\tpassword text,\n\t\t\tuser_tags text,\n\t\t\tuser_type text,\n\t\t\tuser_image text,\n\t\t\tsuper_user bool,\n\t\t\tmod_tags text,\n\t\t\tmod_questions text,\n\t\t\tbadges text\n\t\t);\n\t\t").toList

def sqlCreateQuestions : List Char :=
  ("\n\t\tcreate table questions (\n\t\t\tid integer not null primary key autoincrement,\n\t\t\theading text,\n\t\t\tbody text,\n\t\t\ttags text,\n\t\t\timage text,\n\t\t\tdate text,\n\t\t\ttime text,\n\t\t\tuser text,\n\t\t\tanswers text,\n\t\t\tvotes text,\n\t\t\tviews int,\n\t\t\topen bool\n\t\t);\n\t\t").toList

def sqlCreateAnswers : List Char :=
  ("\n\t\tcreate table answers (\n\t\t\tid integer not null primary key autoincrement,\n\t\t\tbody text,\n\t\t\tdate text,\n\t\t\ttime text,\n\t\t\tuser text,\n\t\t\tvotes text,\n\t\t\tviews int,\n\t\t\tqn int\n\t\t);\n\t\t").toList

/-- The tags schema exactly as written: note the missing comma between
`name text` and `desc text`. -/
def sqlCreateTags : List Char :=
  ("\n\t\tcreate table tags (\n\t\t\tid integer not null primary key autoincrement,\n\t\t\tname text\n\t\t\tdesc text\n\t\t);\n\t\t").toList

def sqlCreateBadges : List Char :=
  ("\n\t\tcreate table badges (\n\t\t\tid integer not null primary key autoincrement,\n\t\t\tname text,\n\t\t\tdescription text,\n\t\t\tusers text\n\t\t);\n\t\t").toList

/-- The tags schema with the missing comma restored — a test vector
showing the single comma is all that separates the statement from
well-formedness; not part of the program. -/
def sqlCreateTagsComma : List Char :=
  ("\n\t\tcreate table tags (\n\t\t\tid integer not null primary key autoincrement,\n\t\t\tname text,\n\t\t\tdesc text\n\t\t);\n\t\t").toList

def sqlInsertUsers : List Char :=
  ("\n\tinsert into users (first_name, last_name, username, unique_id, password, user_tags, user_type, user_image, super_user, mod_tags, mod_questions, badges)\n\tvalues (\"Sagar\", \"Yadav\", \"sagaryadav\", 1, \"password\", \"\", \"\", \"\", false, \"\", \"\", \"\");\n\t").toList

def sqlInsertQuestions : List Char :=
  ("\n\tinsert into questions (heading, body, tags, image, date, time, user, answers, votes, views, open)\n\tvalues (\"How to use Go\", \"Go is a programming language\", \"go, programming\", \"\", \"\", \"\", \"sagaryadav\", \"\", \"\", 0, true);\n\t").toList

def sqlInsertAnswers : List Char :=
  ("\n\tinsert into answers (body, date, time, user, votes, views, qn)\n\tvalues (\"Go is a programming language\", \"\", \"\", \"sagaryadav\", \"\", 0, 1);\n\t").toList

def sqlInsertTags : List Char :=
  ("\n\tinsert into tags (name, desc)\n\tvalues (\"Go\", \"Go is a programming language made by Google\");\n\t").toList

def sqlInsertBadges : List Char :=
  ("\n\tinsert into badges (name, description, users)\n\tvalues (\"Curious\", \"Asks questions\", \"sagaryadav\");\n\t").toList

/-- Does a literal consist of exactly one well-formed `create table`
statement under the strict dialect? -/
def strictCreateOK (s : List Char) : Bool :=
  match (splitTok semiTok (tokenize s)).filter (fun g => g ≠ []) with
  | [ts] => (parseCreate ts).isSome
  | _ => false

/-! ## Process bootstrap (`createDatabase`, `createSampleData`, `main`) -/

/-- Process-level state: whether `qaApp.db` exists on disk, its
contents, and the lines printed to standard output. -/
structure AppState where
  dbFileExists : Bool
  db : DBFile
  stdout : List (List Char)
deriving DecidableEq

def freshApp : AppState := { dbFileExists := false, db := emptyDB, stdout := [] }

/-- Model of `createDatabase` (lines 73–146): if `qaApp.db` does not
exist, open it (SQLite creates the file) and call
`db.Exec(sqlStmt, sqlStmt2, sqlStmt3, sqlStmt4, sqlStmt5)` — note the
four other creation statements are passed as `args`, not executed — and
print any error.  If the file exists, do nothing. -/
def createDatabase (st : AppState) : AppState :=
  if st.dbFileExists then st
  else
    let r := dbExec st.db sqlCreateUsers
      [sqlCreateQuestions, sqlCreateAnswers, sqlCreateTags, sqlCreateBadges]
    { dbFileExists := true, db := r.1, stdout := st.stdout ++ r.2.toList }

/-- Model of `createSampleData` (lines 149–179): unconditionally open
the store and call `db.Exec(sqlStmt, sqlStmt2, sqlStmt3, sqlStmt4,
sqlStmt5)` — again only the users insert is the query, the other four
inserts travel as `args` — and print any error. -/
def createSampleData (st : AppState) : AppState :=
  let r := dbExec st.db sqlInsertUsers
    [sqlInsertQuestions, sqlInsertAnswers, sqlInsertTags, sqlInsertBadges]
  { dbFileExists := true, db := r.1, stdout := st.stdout ++ r.2.toList }

/-- One run of `main`'s straight-line prefix (lines 213–226): the two
bootstrap calls, after which control always reaches the route
registration and `http.ListenAndServe`. -/
structure MainRun where
  final : AppState
  listenStarted : Bool
deriving DecidableEq

def runMain (st : AppState) : MainRun :=
  { final := createSampleData (createDatabase st), listenStarted := true }

/-! ## Concrete environments used by the witnesses -/

def errNoFile : List Char :=
  ("open templates/about.html: no such file or directory").toList

/-- A world whose filesystem is empty: every parse fails. -/
def wErr : World Unit :=
  { fs := fun _ => none
  , parseFiles := fun _ => Except.error errNoFile
  , parseMissing := fun _ _ _ _ => ⟨errNoFile, rfl⟩
  , execute := fun _ _ => ([], none) }

/-- A world where parsing succeeds and execution fails after streaming
partial output. -/
def wOk : World Unit :=
  { fs := fun _ => some []
  , parseFiles := fun _ => Except.ok ()
  , parseMissing := fun _ _ _ h => Option.noConfusion h
  , execute := fun _ _ => ("<partial output ".toList, some ("template exec error".toList)) }

def reqGet : Request :=
  { method := "GET".toList, path := "/about.html".toList, headers := [],
    body := [], remoteAddr := "1.2.3.4:1000".toList }

def reqPost : Request :=
  { method := "POST".toList, path := "/about.html".toList,
    headers := [("Cookie".toList, "session=zzz".toList)],
    body := "payload".toList, remoteAddr := "5.6.7.8:2000".toList }

/-! ## Specification-side definitions -/

/-- `s` is the final path segment of `p`, read off the spec's words: a
nonempty separator-free run that is preceded by nothing or by a
separator and followed only by separators. -/
def IsFinalSegment (p s : List Char) : Prop :=
  s ≠ [] ∧ '/' ∉ s ∧
    ∃ pre sl, (∀ c ∈ sl, c = '/') ∧ (pre = [] ∨ ∃ pre0, pre = pre0 ++ ['/']) ∧
      p = pre ++ s ++ sl

/-! ## List helper lemmas -/

theorem dropWhile_append_of_all {α : Type} (q : α → Bool) (a b : List α)
    (h : ∀ c ∈ a, q c = true) : (a ++ b).dropWhile q = b.dropWhile q := by
  induction a with
  | nil => rfl
  | cons c a ih =>
    have hc : q c = true := h c (by simp)
    simp only [List.cons_append, List.dropWhile_cons_of_pos hc]
    exact ih (fun x hx => h x (by simp [hx]))

theorem takeWhile_append_of_all {α : Type} (q : α → Bool) (a b : List α)
    (h : ∀ c ∈ a, q c = true) : (a ++ b).takeWhile q = a ++ b.takeWhile q := by
  induction a with
  | nil => rfl
  | cons c a ih =>
    have hc : q c = true := h c (by simp)
    simp only [List.cons_append, List.takeWhile_cons_of_pos hc]
    rw [ih (fun x hx => h x (by simp [hx]))]

theorem dropWhile_eq_cons_head {α : Type} (q : α → Bool) (l : List α) (c : α) (t : List α)
    (h : l.dropWhile q = c :: t) : q c = false := by
  induction l with
  | nil => simp [List.dropWhile] at h
  | cons a l ih =>
    by_cases ha : q a = true
    · rw [List.dropWhile_cons_of_pos ha] at h
      exact ih h
    · rw [List.dropWhile_cons_of_neg (by simp [ha])] at h
      cases h
      simpa using ha

theorem mem_takeWhile_pred {α : Type} (q : α → Bool) (l : List α) (x : α)
    (h : x ∈ l.takeWhile q) : q x = true := by
  induction l with
  | nil => simp [List.takeWhile] at h
  | cons a l ih =>
    by_cases ha : q a = true
    · rw [List.takeWhile_cons_of_pos ha] at h
      rcases List.mem_cons.mp h with h1 | h1
      · exact h1 ▸ ha
      · exact ih h1
    · rw [List.takeWhile_cons_of_neg (by simp [ha])] at h
      simp at h

/-! ## Resolution lemmas for `goBase` -/

theorem goBase_eq_of_finalSegment (p s : List Char) (h : IsFinalSegment p s) :
    goBase p = s := by
  obtain ⟨hne, hns, pre, sl, hsl, hpre, hp⟩ := h
  subst hp
  have hslq : ∀ c ∈ sl.reverse, isSep c = true := by
    intro c hc
    rw [List.mem_reverse] at hc
    simp [isSep, hsl c hc]
  obtain ⟨c, t, hc, hcs⟩ : ∃ c t, s.reverse = c :: t ∧ c ∈ s := by
    cases hs : s.reverse with
    | nil => exact absurd (by simpa using congrArg List.reverse hs) hne
    | cons c t =>
      refine ⟨c, t, rfl, ?_⟩
      rw [← List.mem_reverse, hs]
      simp
  have hcne : c ≠ '/' := fun hq => hns (hq ▸ hcs)
  have hcq : isSep c = false := by simp [isSep, hcne]
  have hdrop : dropTrailingSeps (pre ++ s ++ sl) = pre ++ s := by
    unfold dropTrailingSeps
    rw [List.reverse_append, List.reverse_append]
    rw [dropWhile_append_of_all _ _ _ hslq, hc, List.cons_append,
      List.dropWhile_cons_of_neg (by simp [hcq]), ← List.cons_append, ← hc]
    simp
  have hne2 : pre ++ s ≠ [] := by
    intro hq
    exact hne (List.append_eq_nil.mp hq).2
  have hne1 : pre ++ s ++ sl ≠ [] := by
    intro hq
    exact hne2 (List.append_eq_nil.mp hq).1
  have hsq : ∀ x ∈ s.reverse, (!(isSep x)) = true := by
    intro x hx
    rw [List.mem_reverse] at hx
    have hxne : x ≠ '/' := fun hq => hns (hq ▸ hx)
    simp [isSep, hxne]
  have hlast : lastSeg (pre ++ s) = s := by
    unfold lastSeg
    rw [List.reverse_append, takeWhile_append_of_all _ _ _ hsq]
    rcases hpre with h0 | ⟨pre0, h0⟩
    · subst h0; simp
    · subst h0
      have hz : ((pre0 ++ ['/']).reverse).takeWhile (fun c => !(isSep c)) = [] := by
        simp [List.reverse_append, List.takeWhile_cons, isSep]
      rw [hz]
      simp
  unfold goBase
  rw [if_neg hne1, hdrop, if_neg hne2, hlast]

theorem goBase_ne_nil (p : List Char) : goBase p ≠ [] := by
  by_cases h1 : p = []
  · simp [goBase, h1]
  by_cases h2 : dropTrailingSeps p = []
  · simp [goBase, h1, h2]
  · simp only [goBase, if_neg h1, if_neg h2]
    have hrr : (dropTrailingSeps p).reverse = p.reverse.dropWhile isSep := by
      unfold dropTrailingSeps; simp
    cases hcase : p.reverse.dropWhile isSep with
    | nil =>
      rw [← hrr] at hcase
      exact absurd (by simpa using congrArg List.reverse hcase) h2
    | cons c t =>
      have hcF : isSep c = false := dropWhile_eq_cons_head _ _ _ _ hcase
      unfold lastSeg
      rw [hrr, hcase, List.takeWhile_cons_of_pos (by simp [hcF])]
      simp

theorem goBase_no_slash (p : List Char) (h : goBase p ≠ ['/']) : '/' ∉ goBase p := by
  by_cases h1 : p = []
  · simp [goBase, h1]
  by_cases h2 : dropTrailingSeps p = []
  · exact absurd (by simp [goBase, h1, h2]) h
  · simp only [goBase, if_neg h1, if_neg h2]
    intro hmem
    unfold lastSeg at hmem
    rw [List.mem_reverse] at hmem
    have := mem_takeWhile_pred _ _ _ hmem
    simp [isSep] at this

theorem resolveTemplateName_props (p : List Char) :
    resolveTemplateName p ≠ [] ∧ '/' ∉ resolveTemplateName p := by
  unfold resolveTemplateName
  by_cases h : goBase p = ['/']
  · rw [if_pos h]
    constructor
    · decide
    · decide
  · rw [if_neg h]
    exact ⟨goBase_ne_nil p, goBase_no_slash p h⟩

/-! ## Join lemmas for `goJoin` -/

theorem segmentsAux_append (a : List Char) (h : ∀ c ∈ a, c ≠ '/') :
    ∀ l cur, segmentsAux (a ++ l) cur = segmentsAux l (a.reverse ++ cur) := by
  induction a with
  | nil => intro l cur; simp
  | cons c a ih =>
    intro l cur
    have hc : c ≠ '/' := h c (by simp)
    simp only [List.cons_append, segmentsAux, if_neg hc, List.append_eq]
    rw [ih (fun x hx => h x (by simp [hx])) l (c :: cur)]
    simp

theorem segmentsAux_no_slash (b : List Char) (h : ∀ c ∈ b, c ≠ '/') :
    ∀ cur, segmentsAux b cur = [cur.reverse ++ b] := by
  induction b with
  | nil => intro cur; simp [segmentsAux]
  | cons c b ih =>
    intro cur
    have hc : c ≠ '/' := h c (by simp)
    simp only [segmentsAux, if_neg hc]
    rw [ih (fun x hx => h x (by simp [hx])) (c :: cur)]
    simp

theorem segments_two (a b : List Char) (ha : ∀ c ∈ a, c ≠ '/') (hb : ∀ c ∈ b, c ≠ '/') :
    segments (a ++ '/' :: b) = [a, b] := by
  unfold segments
  rw [segmentsAux_append a ha ('/' :: b) []]
  simp only [segmentsAux, if_pos rfl]
  rw [segmentsAux_no_slash b hb []]
  simp

theorem goJoin_templates (n : List Char) (h1 : n ≠ []) (h2 : '/' ∉ n) :
    goJoin "templates".toList n =
      if n = ['.'] then "templates".toList
      else if n = ['.', '.'] then ['.']
      else "templates/".toList ++ n := by
  by_cases hdot : n = ['.']
  · subst hdot; decide
  by_cases hdd : n = ['.', '.']
  · subst hdd; decide
  have hta : ∀ c ∈ "templates".toList, c ≠ '/' := by decide
  have hnb : ∀ c ∈ n, c ≠ '/' := fun c hc hq => h2 (hq ▸ hc)
  have htne : "templates".toList ≠ [] := by decide
  have hcond : ¬(n = [] ∨ n = ['.']) := by simp [h1, hdot]
  have hjoin : goJoin "templates".toList n = goClean ("templates".toList ++ '/' :: n) := by
    unfold goJoin
    rw [if_neg (by simp [htne]), if_neg htne]
  rw [hjoin]
  unfold goClean
  rw [if_neg (by simp [htne])]
  have hhead : (("templates".toList ++ '/' :: n).head? == some '/') = false := rfl
  rw [segments_two _ _ hta hnb]
  simp only [hhead, Bool.false_eq_true, if_false]
  have hstep1 : cleanSegsAux false ["templates".toList, n] [] =
      cleanSegsAux false [n] ["templates".toList] := by
    simp only [cleanSegsAux]
    rw [if_neg (by decide), if_neg (by decide)]
  have hsegs : cleanSegsAux false [n] ["templates".toList] = ["templates".toList, n] := by
    simp only [cleanSegsAux, if_neg hcond, if_neg hdd]
    rfl
  rw [hstep1, hsegs, if_neg (by simp), if_neg hdot, if_neg hdd]
  show "templates".toList ++ '/' :: n = "templates/".toList ++ n
  rfl

/-! ## Claim theorems -/

/-- Claim C1: for every request, the resolved template name equals the
final path segment of the request's URL path; when the path is the root
path "/" the name is "index.html"; and the file path then parsed is the
join of the fixed directory "templates" with that name. -/
theorem resolveTemplateName_finalSegment :
    (∀ p s, IsFinalSegment p s → resolveTemplateName p = s) ∧
    resolveTemplateName ['/'] = "index.html".toList ∧
    (∀ p, resolveTemplatePath p = goJoin "templates".toList (resolveTemplateName p)) := by
  refine ⟨?_, by decide, fun p => rfl⟩
  intro p s h
  have hb := goBase_eq_of_finalSegment p s h
  have hs : s ≠ ['/'] := by
    intro hq
    exact h.2.1 (hq ▸ (by simp))
  unfold resolveTemplateName
  rw [hb, if_neg hs]

/-- Witness for C1 at the concrete path "/about.html". -/
theorem resolveTemplateName_finalSegment_witness :
    resolveTemplateName ("/about.html".toList) = "about.html".toList :=
  resolveTemplateName_finalSegment.1 _ _
    ⟨by decide, by decide, ['/'], [], by decide, Or.inr ⟨[], rfl⟩, by decide⟩

/-- Claim C7 (counterexample): the request path "/.." resolves to the
path ".", the current working directory — `filepath.Base` keeps ".."
and `filepath.Join` then cleans "templates/.." to "." — so the resolved
path does not stay within the "templates" directory. -/
theorem resolveTemplatePath_dotdot_escape :
    resolveTemplatePath ('/' :: '.' :: '.' :: []) = ['.'] ∧
    (resolveTemplatePath ('/' :: '.' :: '.' :: [])).take 10 ≠ "templates/".toList := by
  decide

/-- Claim C7 (amended): for every request URL path, the resolved
template path is either "templates/<name>" for a nonempty
separator-free name other than "." and "..", or the "templates"
directory itself (basename "."), or the current directory "."
(basename ".."); in no case does it name a file outside the
"templates" directory. -/
theorem resolveTemplatePath_cases :
    ∀ p, resolveTemplatePath p = "templates".toList ∨
      resolveTemplatePath p = ['.'] ∨
      (∃ n, resolveTemplatePath p = "templates/".toList ++ n ∧
        n ≠ [] ∧ '/' ∉ n ∧ n ≠ ['.'] ∧ n ≠ ['.', '.']) := by
  intro p
  obtain ⟨hn1, hn2⟩ := resolveTemplateName_props p
  have hpath : resolveTemplatePath p = goJoin "templates".toList (resolveTemplateName p) :=
    rfl
  rw [hpath, goJoin_templates _ hn1 hn2]
  by_cases hdot : resolveTemplateName p = ['.']
  · left; rw [if_pos hdot]
  by_cases hdd : resolveTemplateName p = ['.', '.']
  · right; left; rw [if_neg hdot, if_pos hdd]
  · right; right
    exact ⟨resolveTemplateName p, by rw [if_neg hdot, if_neg hdd], hn1, hn2, hdot, hdd⟩

/-- Claim C4: whenever the template set fails to parse, the handler
responds HTTP 500 with the raw error text as the body; in particular,
when the resolved template file is missing from the filesystem the
response status is 500. -/
theorem serveTemplate_parse_error_500 :
    ∀ (Tmpl : Type) (w : World Tmpl) (r : Request),
      (∀ e, w.parseFiles (templateFileList r.path) = Except.error e →
        serveTemplate w r = { status := 500, body := e }) ∧
      (w.fs (resolveTemplatePath r.path) = none →
        (serveTemplate w r).status = 500) := by
  intro Tmpl w r
  constructor
  · intro e he
    simp [serveTemplate, he]
  · intro hf
    obtain ⟨e, he⟩ := w.parseMissing (templateFileList r.path)
      (resolveTemplatePath r.path) (by simp [templateFileList]) hf
    simp [serveTemplate, he]

/-- Witness for C4: a GET request against an empty filesystem. -/
theorem serveTemplate_parse_error_500_witness :
    serveTemplate wErr reqGet = { status := 500, body := errNoFile } ∧
    (serveTemplate wErr reqGet).status = 500 :=
  ⟨(serveTemplate_parse_error_500 Unit wErr reqGet).1 errNoFile rfl,
   (serveTemplate_parse_error_500 Unit wErr reqGet).2 rfl⟩

/-- Claim C5: the page context passed to the template is the same fixed
value on every request — logged-in flag true and the hard-coded Mario
Rossi user — and the handler's success path executes the template
against exactly that context. -/
theorem serveTemplate_fixed_context :
    (∀ r : Request, pageData r =
      { Logged := true,
        User := { FirstName := "Mario", LastName := "Rossi", UserName := "mario",
                  UniqueID := 1, Questions := [], Answers := [], Notifications := [],
                  Password := "", UserTags := [], UserType := [], UserImage := "",
                  SuperUser := false, ModTags := [], ModQuestions := [], Badges := [] } }) ∧
    (∀ (Tmpl : Type) (w : World Tmpl) (r : Request) (t : Tmpl),
      w.parseFiles (templateFileList r.path) = Except.ok t →
      serveTemplate w r = execToResponse (w.execute t { Logged := true, User := marioUser })) := by
  constructor
  · intro r; rfl
  · intro Tmpl w r t ht
    simp [serveTemplate, ht, pageData]

/-- Witness for C5: the success path of a concrete world executes the
template at the fixed Mario context. -/
theorem serveTemplate_fixed_context_witness :
    serveTemplate wOk reqGet =
      execToResponse (wOk.execute () { Logged := true, User := marioUser }) :=
  serveTemplate_fixed_context.2 Unit wOk reqGet () rfl

/-- Claim C9: the handler's response is a function of the request's URL
path only — two requests agreeing on the path but differing in method,
headers, body or source produce identical responses against the same
environment. -/
theorem serveTemplate_depends_only_on_path :
    ∀ (Tmpl : Type) (w : World Tmpl) (r r2 : Request),
      r.path = r2.path → serveTemplate w r = serveTemplate w r2 := by
  intro Tmpl w r r2 h
  simp only [serveTemplate, pageData, templateFileList, h]

/-- Witness for C9: a GET and a POST with different headers, body and
source but the same path get byte-identical responses. -/
theorem serveTemplate_depends_only_on_path_witness :
    serveTemplate wErr reqGet = serveTemplate wErr reqPost :=
  serveTemplate_depends_only_on_path Unit wErr reqGet reqPost rfl

/-- Claim C10: on a parse failure the handler returns immediately, so
the body is exactly the error text with no partial template output;
on an execution failure the body is whatever was already streamed
followed by the error text. -/
theorem parse_failure_clean_error :
    ∀ (Tmpl : Type) (w : World Tmpl) (r : Request),
      (∀ e, w.parseFiles (templateFileList r.path) = Except.error e →
        serveTemplate w r = { status := 500, body := e }) ∧
      (∀ t out e, w.parseFiles (templateFileList r.path) = Except.ok t →
        w.execute t (pageData r) = (out, some e) →
        (serveTemplate w r).body = out ++ e) := by
  intro Tmpl w r
  constructor
  · intro e he
    simp [serveTemplate, he]
  · intro t out e ht hex
    simp only [serveTemplate, ht, execToResponse, hex]
    by_cases hout : out = []
    · simp [execToResponse, hout]
    · simp [execToResponse, hout]

/-- Witness for C10: the parse-failure body is exactly the error text,
while a failing execution leaves the partial output before the error. -/
theorem parse_failure_clean_error_witness :
    serveTemplate wErr reqPost = { status := 500, body := errNoFile } ∧
    (serveTemplate wOk reqPost).body =
      "<partial output ".toList ++ "template exec error".toList :=
  ⟨(parse_failure_clean_error Unit wErr reqPost).1 errNoFile rfl,
   (parse_failure_clean_error Unit wOk reqPost).2 () ("<partial output ".toList)
     ("template exec error".toList) rfl rfl⟩

/-- Claim C2 (code evaluated at the failing input): starting with no
store file, `createDatabase` creates the file but ends up with only the
`users` table — the other four creation statements are passed to
`db.Exec` as bind arguments, never executed — and the driver's
`not all args are consumed` error is printed; a second call (file now
present) does nothing. -/
theorem createDatabase_only_users_table :
    (createDatabase freshApp).dbFileExists = true ∧
    (createDatabase freshApp).db.tables.map Prod.fst = ["users".toList] ∧
    (createDatabase freshApp).stdout = ["not all args are consumed".toList] ∧
    createDatabase (createDatabase freshApp) = createDatabase freshApp := by
  decide

/-- Claim C3 (code evaluated at the failing input): each run of the
bootstrap inserts one sample row into `users` only — the other four
insert statements travel as bind arguments — so two runs leave two
copies of the users row and nothing in the other tables, which do not
even exist. -/
theorem createSampleData_only_users_rows :
    (rowsOf (runMain freshApp).final.db ("users".toList)).length = 1 ∧
    (rowsOf (runMain (runMain freshApp).final).final.db ("users".toList)).length = 2 ∧
    rowsOf (runMain (runMain freshApp).final).final.db ("users".toList) =
      rowsOf (runMain freshApp).final.db ("users".toList) ++
        rowsOf (runMain freshApp).final.db ("users".toList) ∧
    rowsOf (runMain (runMain freshApp).final).final.db ("questions".toList) = [] ∧
    rowsOf (runMain (runMain freshApp).final).final.db ("answers".toList) = [] ∧
    rowsOf (runMain (runMain freshApp).final).final.db ("tags".toList) = [] ∧
    rowsOf (runMain (runMain freshApp).final).final.db ("badges".toList) = [] ∧
    (runMain (runMain freshApp).final).final.db.tables.map Prod.fst = ["users".toList] := by
  decide

/-- Claim C6: bootstrap errors are appended to standard output and
swallowed — both bootstrap functions are total state transformers whose
only output channel besides the store is the stdout log, and `main`
reaches the listener no matter what state bootstrap ran against. -/
theorem bootstrap_errors_logged_and_swallowed :
    ∀ st : AppState,
      (∃ msgs, (createDatabase st).stdout = st.stdout ++ msgs) ∧
      (∃ msgs, (createSampleData st).stdout = st.stdout ++ msgs) ∧
      (runMain st).listenStarted = true := by
  intro st
  refine ⟨?_, ?_, rfl⟩
  · by_cases h : st.dbFileExists
    · exact ⟨[], by simp [createDatabase, h]⟩
    · exact ⟨(dbExec st.db sqlCreateUsers
        [sqlCreateQuestions, sqlCreateAnswers, sqlCreateTags, sqlCreateBadges]).2.toList,
        by simp [createDatabase, h]⟩
  · exact ⟨(dbExec st.db sqlInsertUsers
      [sqlInsertQuestions, sqlInsertAnswers, sqlInsertTags, sqlInsertBadges]).2.toList, rfl⟩

/-- Claim C8: the tags creation statement is malformed — the missing
comma between `name text` and `desc text` makes its second
comma-delimited item a double column definition — so the strict-dialect
engine rejects it and creates nothing, while the other four creation
statements (and the tags statement with the comma restored) are
accepted. -/
theorem tags_create_malformed :
    strictCreateOK sqlCreateTags = false ∧
    strictCreateOK sqlCreateUsers = true ∧
    strictCreateOK sqlCreateQuestions = true ∧
    strictCreateOK sqlCreateAnswers = true ∧
    strictCreateOK sqlCreateBadges = true ∧
    strictCreateOK sqlCreateTagsComma = true ∧
    (dbExec emptyDB sqlCreateTags []).1 = emptyDB ∧
    (dbExec emptyDB sqlCreateTags []).2.isSome = true := by
  decide

end QaApp
